import Mathlib

/-!
# Verification of the openst.js `User` wallet-orchestration facade

Shallow embedding of `src/lib/helper/User.js` (the `User` facade), the
transaction sender it dispatches through, and the ABI call-data encoding the
facade delegates to web3.  Byte strings are `List Nat` (each entry a byte
value), addresses are `Nat` (values below 2^160), and uint256 values are `Nat`
reduced modulo 2^256 where the encoding requires it.

The code of the repository under `src/` is `User.js` plus an integration test
and a chain-config file.  The ABI encoder (web3), the `TxSender`
(`src/lib/utils/TxSender`, not included under `src/`), the `AbiBinProvider`
registry, `findPreviousOwner` from the `GnosisSafe` helper, and the on-chain
contracts are modelled from the specification, as marked on each definition.
-/

/-! ## Bytes, words and the standard ABI encoding

Modelled from the spec: `web3.eth.abi.encodeFunctionCall` and
`contract.methods.<m>(...).encodeABI()` are external-library calls; the spec
describes them as "standard ABI function-selector + argument encoding (4-byte
selector, 32-byte-aligned argument words, dynamic types length-prefixed)". -/

/-- Big-endian byte string of length `k` for the value `n` (truncated to `k`
bytes). -/
def beBytes : Nat → Nat → List Nat
  | 0, _ => []
  | k + 1, n => beBytes k (n / 256) ++ [n % 256]

/-- One 32-byte ABI word holding a `uint256` value. -/
def encodeWord (n : Nat) : List Nat :=
  beBytes 32 (n % 2 ^ 256)

/-- An address occupies one word as its 160-bit value, left-padded. -/
def encodeAddressWord (a : Nat) : List Nat :=
  encodeWord (a % 2 ^ 160)

/-- Zero-pad a byte string on the right to a multiple of 32 bytes. -/
def padRight32 (bs : List Nat) : List Nat :=
  bs ++ List.replicate ((32 - bs.length % 32) % 32) 0

/-- The ABI argument values appearing in the calls of the facade. -/
inductive AbiValue
  | uint (n : Nat)
  | addr (a : Nat)
  | bytes (bs : List Nat)
  | addrArray (as' : List Nat)
  | uintArray (ns : List Nat)
deriving DecidableEq, Repr

/-- Whether an ABI value is of dynamic type (encoded in the tail,
length-prefixed, with an offset word in the head). -/
def AbiValue.isDynamic : AbiValue → Bool
  | .uint _ => false
  | .addr _ => false
  | .bytes _ => true
  | .addrArray _ => true
  | .uintArray _ => true

/-- Tail encoding of an ABI value: empty for static types; for dynamic types
the element count followed by the 32-byte-aligned contents. -/
def AbiValue.encTail : AbiValue → List Nat
  | .uint _ => []
  | .addr _ => []
  | .bytes bs => encodeWord bs.length ++ padRight32 bs
  | .addrArray as' => encodeWord as'.length ++ (as'.map encodeAddressWord).flatten
  | .uintArray ns => encodeWord ns.length ++ (ns.map encodeWord).flatten

/-- Head word of an ABI value: the value itself for static types, the byte
offset of its tail (from the start of the argument block) for dynamic types. -/
def AbiValue.encHead (v : AbiValue) (offset : Nat) : List Nat :=
  match v with
  | .uint n => encodeWord n
  | .addr a => encodeAddressWord a
  | .bytes _ => encodeWord offset
  | .addrArray _ => encodeWord offset
  | .uintArray _ => encodeWord offset

/-- Heads and tails of an argument list, `offset` being the byte offset at
which the next tail will be placed. -/
def encodeAux : List AbiValue → Nat → List Nat × List Nat
  | [], _ => ([], [])
  | v :: rest, offset =>
    let t := v.encTail
    let (hs, ts) := encodeAux rest (offset + t.length)
    (v.encHead offset ++ hs, t ++ ts)

/-- Standard ABI encoding of an argument tuple: one 32-byte head word per
argument, followed by the tails of the dynamic arguments in order. -/
def encodeAbiTuple (vs : List AbiValue) : List Nat :=
  let (h, t) := encodeAux vs (32 * vs.length)
  h ++ t

/-! ## Function selectors

Each selector is the first four bytes of the keccak-256 hash of the canonical
function signature; keccak is a fixed deterministic function, so for the fixed
signatures the facade calls these are fixed byte constants. -/

/-- Selector of `setup(address[],uint256,address,bytes)` (GnosisSafe). -/
def setupGnosisSelector : List Nat := [0x0e, 0xc7, 0x8d, 0x9e]

/-- Selector of
`createUserWallet(address,bytes,address,address,address,address[],uint256[],uint256[])`
(UserWalletFactory). -/
def createUserWalletSelector : List Nat := [0xd9, 0x4c, 0x25, 0x29]

/-- Selector of `setup(address,address,address,address[],uint256[],uint256[])`
(TokenHolder). -/
def setupTokenHolderSelector : List Nat := [0x5c, 0x0a, 0x60, 0xf9]

/-- Selector of `createProxy(address,bytes)` (ProxyFactory). -/
def createProxySelector : List Nat := [0x61, 0xb6, 0x9a, 0xbd]

/-! ## Errors, registry, transactions, receipts -/

/-- The error taxonomy of the spec (section 7). -/
inductive SdkError
  | ValidationError
  | NotFoundError
  | SubmissionError
  | RevertError
deriving DecidableEq, Repr

/-- Modelled from the spec: the `AbiBinProvider` ABI/bytecode registry (not
under `src/`) maps contract names to bundled interface artifacts; `getABI`
fails with `NotFoundError` for an unregistered name.  Only registration
matters to the control flow of the facade, so the registry is the list of
registered contract names. -/
abbrev Registry : Type := List String

/-- Modelled from the spec: `getABI(name)` resolves a contract interface from
the registry, failing with `NotFoundError` when `name` is unregistered. -/
def getABI (reg : Registry) (name : String) : Except SdkError Unit :=
  if name ∈ reg then Except.ok () else Except.error SdkError.NotFoundError

/-- The registry bundled with the SDK (`new AbiBinProvider()`), holding the
contract artifacts the facade and tests name. -/
def defaultRegistry : Registry :=
  ["GnosisSafe", "TokenHolder", "UserWalletFactory", "ProxyFactory", "TokenRules"]

/-- Events decoded from receipt logs that the claims mention. -/
inductive Event
  | UserWalletCreated (gnosisSafeProxy tokenHolderProxy : Nat)
deriving DecidableEq, Repr

/-- A raw transaction object as handed to the sender: target address and
ABI-encoded call data. -/
structure RawTx where
  toAddr : Nat
  data : List Nat
deriving DecidableEq, Repr

/-- A transaction receipt: status flag and decoded events. -/
structure Receipt where
  status : Bool
  events : List Event
deriving DecidableEq, Repr

/-- How the node responds to one submitted transaction: rejection before
mining, or inclusion with a status flag and emitted events. -/
inductive NodeResponse
  | rejected
  | mined (status : Bool) (events : List Event)
deriving DecidableEq, Repr

/-- The RPC-connected node, as the deterministic response it gives to each
submitted transaction. -/
abbrev Node : Type := RawTx → NodeResponse

/-- Modelled from the spec: `TxSender.execute` (`src/lib/utils/TxSender`, not
under `src/`) submits the transaction once, awaits mining, and returns the
receipt; it fails with `SubmissionError` if the node rejects the transaction
before mining and with `RevertError` if the receipt status indicates on-chain
revert.  No retry: one submission per invocation.  The second component lists
the submissions performed. -/
def txSenderExecute (node : Node) (tx : RawTx) :
    Except SdkError Receipt × List RawTx :=
  match node tx with
  | NodeResponse.rejected => (Except.error SdkError.SubmissionError, [tx])
  | NodeResponse.mined status events =>
    (if status then Except.ok ⟨status, events⟩ else Except.error SdkError.RevertError, [tx])

/-! ## The `User` facade (`src/lib/helper/User.js`) -/

/-- Instance fields of the `User` facade, as set by its constructor.  The
`auxiliaryWeb3` handle only supplies the ambient ABI encoding machinery
modelled above and is not carried as data. -/
structure User where
  gnosisSafeMasterCopy : Nat
  tokenHolderMasterCopy : Nat
  eip20Token : Nat
  tokenRules : Nat
  userWalletFactoryAddress : Nat
  abiBinProvider : Registry
deriving DecidableEq

/-- The `User` constructor: stores the five addresses and creates a fresh
`AbiBinProvider` holding the bundled artifacts. -/
def mkUser (gnosisSafeMasterCopy tokenHolderMasterCopy eip20Token tokenRules
    userWalletFactoryAddress : Nat) : User :=
  { gnosisSafeMasterCopy := gnosisSafeMasterCopy
    tokenHolderMasterCopy := tokenHolderMasterCopy
    eip20Token := eip20Token
    tokenRules := tokenRules
    userWalletFactoryAddress := userWalletFactoryAddress
    abiBinProvider := defaultRegistry }

/-- `User.getGnosisSafeData`: `encodeFunctionCall` of
`setup(address[],uint256,address,bytes)` at `[owners, threshold, to, data]`. -/
def getGnosisSafeData (owners : List Nat) (threshold toAddr : Nat)
    (data : List Nat) : List Nat :=
  setupGnosisSelector ++
    encodeAbiTuple
      [AbiValue.addrArray owners, AbiValue.uint threshold, AbiValue.addr toAddr,
        AbiValue.bytes data]

/-- `User.getTokenHolderSetupExecutableData`: resolves the TokenHolder ABI
from the registry, then `encodeABI()` of
`setup(eip20Token, tokenRules, owner, sessionKeys, sessionKeysSpendingLimits,
sessionKeysExpirationHeights)`. -/
def getTokenHolderSetupExecutableData (u : User) (owner : Nat)
    (sessionKeys sessionKeysSpendingLimits sessionKeysExpirationHeights : List Nat) :
    Except SdkError (List Nat) := do
  let _ ← getABI u.abiBinProvider "TokenHolder"
  Except.ok (setupTokenHolderSelector ++
    encodeAbiTuple
      [AbiValue.addr u.eip20Token, AbiValue.addr u.tokenRules, AbiValue.addr owner,
        AbiValue.addrArray sessionKeys,
        AbiValue.uintArray sessionKeysSpendingLimits,
        AbiValue.uintArray sessionKeysExpirationHeights])

/-- `User._createUserWalletRawTx`: encodes the gnosis setup data, resolves the
UserWalletFactory ABI, and builds the `createUserWallet` call against the
configured `userWalletFactoryAddress` with the arguments in source order. -/
def createUserWalletRawTx (u : User) (owners : List Nat) (threshold toAddr : Nat)
    (data sessionKeys sessionKeysSpendingLimits sessionKeysExpirationHeights : List Nat) :
    Except SdkError RawTx := do
  let gnosisSafeData := getGnosisSafeData owners threshold toAddr data
  let _ ← getABI u.abiBinProvider "UserWalletFactory"
  Except.ok
    { toAddr := u.userWalletFactoryAddress
      data := createUserWalletSelector ++
        encodeAbiTuple
          [AbiValue.addr u.gnosisSafeMasterCopy, AbiValue.bytes gnosisSafeData,
            AbiValue.addr u.tokenHolderMasterCopy, AbiValue.addr u.eip20Token,
            AbiValue.addr u.tokenRules, AbiValue.addrArray sessionKeys,
            AbiValue.uintArray sessionKeysSpendingLimits,
            AbiValue.uintArray sessionKeysExpirationHeights] }

/-- `User._createCompanyWalletRawTx`: encodes the TokenHolder setup data,
resolves the ProxyFactory ABI, and builds the
`createProxy(tokenHolderMasterCopy, thSetupExecutableData)` call against the
caller-supplied `proxyFactory` address. -/
def createCompanyWalletRawTx (u : User) (proxyFactory owner : Nat)
    (sessionKeys sessionKeysSpendingLimits sessionKeysExpirationHeights : List Nat) :
    Except SdkError RawTx := do
  let thSetupExecutableData ← getTokenHolderSetupExecutableData u owner
    sessionKeys sessionKeysSpendingLimits sessionKeysExpirationHeights
  let _ ← getABI u.abiBinProvider "ProxyFactory"
  Except.ok
    { toAddr := proxyFactory
      data := createProxySelector ++
        encodeAbiTuple
          [AbiValue.addr u.tokenHolderMasterCopy,
            AbiValue.bytes thSetupExecutableData] }

/-- `User.createUserWallet`: builds the raw transaction, then dispatches it
through the sender and returns the result of the sender.  The second component
lists the transactions submitted during the call. -/
def createUserWallet (u : User) (node : Node) (owners : List Nat)
    (threshold toAddr : Nat)
    (data sessionKeys sessionKeysSpendingLimits sessionKeysExpirationHeights : List Nat) :
    Except SdkError Receipt × List RawTx :=
  match createUserWalletRawTx u owners threshold toAddr data sessionKeys
      sessionKeysSpendingLimits sessionKeysExpirationHeights with
  | Except.error e => (Except.error e, [])
  | Except.ok tx => txSenderExecute node tx

/-- `User.createCompanyWallet`: builds the raw transaction, then dispatches it
through the sender and returns the result of the sender. -/
def createCompanyWallet (u : User) (node : Node) (proxyFactory owner : Nat)
    (sessionKeys sessionKeysSpendingLimits sessionKeysExpirationHeights : List Nat) :
    Except SdkError Receipt × List RawTx :=
  match createCompanyWalletRawTx u proxyFactory owner sessionKeys
      sessionKeysSpendingLimits sessionKeysExpirationHeights with
  | Except.error e => (Except.error e, [])
  | Except.ok tx => txSenderExecute node tx

/-! ## State-threaded method variants

The JavaScript methods execute against a mutable `this` (`oThis`); to let the
embedding speak about mutation of the instance at all, each method is also
given in state-threading form, returning the instance in the state it is left
in after the call.  The method bodies of `User.js` read instance fields and
never assign to them, which the translations below reflect. -/

/-- `User.getGnosisSafeData` as a state-threading method. -/
def getGnosisSafeDataM (u : User) (owners : List Nat) (threshold toAddr : Nat)
    (data : List Nat) : List Nat × User :=
  (getGnosisSafeData owners threshold toAddr data, u)

/-- `User.getTokenHolderSetupExecutableData` as a state-threading method. -/
def getTokenHolderSetupExecutableDataM (u : User) (owner : Nat)
    (sessionKeys sessionKeysSpendingLimits sessionKeysExpirationHeights : List Nat) :
    Except SdkError (List Nat) × User :=
  (getTokenHolderSetupExecutableData u owner sessionKeys
    sessionKeysSpendingLimits sessionKeysExpirationHeights, u)

/-- `User.createUserWallet` as a state-threading method. -/
def createUserWalletM (u : User) (node : Node) (owners : List Nat)
    (threshold toAddr : Nat)
    (data sessionKeys sessionKeysSpendingLimits sessionKeysExpirationHeights : List Nat) :
    (Except SdkError Receipt × List RawTx) × User :=
  (createUserWallet u node owners threshold toAddr data sessionKeys
    sessionKeysSpendingLimits sessionKeysExpirationHeights, u)

/-- `User.createCompanyWallet` as a state-threading method. -/
def createCompanyWalletM (u : User) (node : Node) (proxyFactory owner : Nat)
    (sessionKeys sessionKeysSpendingLimits sessionKeysExpirationHeights : List Nat) :
    (Except SdkError Receipt × List RawTx) × User :=
  (createCompanyWallet u node proxyFactory owner sessionKeys
    sessionKeysSpendingLimits sessionKeysExpirationHeights, u)

/-! ## Safe Transaction typed data -/

/-- A Safe Transaction: one pending multisig action (spec section 3). -/
structure SafeTx where
  toAddr : Nat
  value : Nat
  data : List Nat
  operation : Nat
  safeTxGas : Nat
  baseGas : Nat
  gasPrice : Nat
  gasToken : Nat
  refundReceiver : Nat
  nonce : Nat
deriving DecidableEq, Repr

/-- Modelled from the spec: `buildSafeTxData` / `getSafeTxData` (the
`GnosisSafe` helper is not under `src/`) produces the structured-data object
over a Safe Transaction whose struct encoding is hashed for signing; the field
order and types are fixed by the typed-data schema of the target contract.  The
struct hash is keccak of this byte string, so identical byte strings give
identical hashes. -/
def safeTxStructEncoding (t : SafeTx) : List Nat :=
  encodeAbiTuple
    [AbiValue.addr t.toAddr, AbiValue.uint t.value, AbiValue.bytes t.data,
      AbiValue.uint t.operation, AbiValue.uint t.safeTxGas,
      AbiValue.uint t.baseGas, AbiValue.uint t.gasPrice,
      AbiValue.addr t.gasToken, AbiValue.addr t.refundReceiver,
      AbiValue.uint t.nonce]

/-! ## Owner linked list -/

/-- The sentinel address anchoring the on-chain owner linked list
(`address(0x1)`). -/
def SENTINEL_OWNERS : Nat := 1

/-- Walk `rest` looking for `owner`, `prev` being the entry just before
`rest`. -/
def findPreviousOwnerAux (prev : Nat) (rest : List Nat) (owner : Nat) :
    Option Nat :=
  match rest with
  | [] => none
  | x :: xs => if x = owner then some prev else findPreviousOwnerAux x xs owner

/-- Modelled from the spec: `findPreviousOwner(owners, owner)` (the
`GnosisSafe` helper is not under `src/`) replicates the on-chain singly linked
owner list: owners are listed head first, the sentinel points at the head, and
the function returns the entry immediately before `owner` — the sentinel when
`owner` is the head of the list. -/
def findPreviousOwner (owners : List Nat) (owner : Nat) : Option Nat :=
  match owners with
  | [] => none
  | first :: rest =>
    if first = owner then some SENTINEL_OWNERS
    else findPreviousOwnerAux first rest owner

/-! ## On-chain wallet creation -/

/-- Outcome of executing a `createUserWallet` factory call on-chain. -/
structure WalletCreationOutcome where
  receiptStatus : Bool
  events : List Event
  ownerRegistry : List Nat
deriving DecidableEq, Repr

/-- Modelled from the spec: the on-chain semantics of the
`UserWalletFactory.createUserWallet` call (the contracts are outside this
repository).  For valid inputs with `1 ≤ threshold ≤ |owners|` it deploys a
gnosis safe proxy and a token holder proxy, installs `owners` as the
owner registry of the safe, and emits `UserWalletCreated` with the two proxy addresses;
otherwise the transaction reverts.  The fresh proxy addresses are parameters
of the execution. -/
def execUserWalletCreation (owners : List Nat) (threshold : Nat)
    (gnosisSafeProxy tokenHolderProxy : Nat) : WalletCreationOutcome :=
  if 1 ≤ threshold ∧ threshold ≤ owners.length then
    { receiptStatus := true
      events := [Event.UserWalletCreated gnosisSafeProxy tokenHolderProxy]
      ownerRegistry := owners }
  else
    { receiptStatus := false, events := [], ownerRegistry := [] }

/-- The node view of a chain whose only contract behavior is the factory
execution above: every submitted transaction is mined with that outcome. -/
def factoryNode (owners : List Nat) (threshold : Nat)
    (gnosisSafeProxy tokenHolderProxy : Nat) : Node :=
  fun _ =>
    let outcome := execUserWalletCreation owners threshold gnosisSafeProxy
      tokenHolderProxy
    NodeResponse.mined outcome.receiptStatus outcome.events

/-! ## The dispatched transactions, as explicit values -/

/-- The raw transaction `_createUserWalletRawTx` builds when ABI resolution
succeeds: the factory `createUserWallet` call against the configured
`userWalletFactoryAddress`. -/
def userWalletFactoryCallTx (u : User) (owners : List Nat)
    (threshold toAddr : Nat)
    (data sessionKeys sessionKeysSpendingLimits sessionKeysExpirationHeights : List Nat) :
    RawTx :=
  { toAddr := u.userWalletFactoryAddress
    data := createUserWalletSelector ++
      encodeAbiTuple
        [AbiValue.addr u.gnosisSafeMasterCopy,
          AbiValue.bytes (getGnosisSafeData owners threshold toAddr data),
          AbiValue.addr u.tokenHolderMasterCopy, AbiValue.addr u.eip20Token,
          AbiValue.addr u.tokenRules, AbiValue.addrArray sessionKeys,
          AbiValue.uintArray sessionKeysSpendingLimits,
          AbiValue.uintArray sessionKeysExpirationHeights] }

/-- The raw transaction `_createCompanyWalletRawTx` builds when ABI resolution
succeeds: the `createProxy` call against the caller-supplied `proxyFactory`. -/
def companyProxyCallTx (u : User) (proxyFactory owner : Nat)
    (sessionKeys sessionKeysSpendingLimits sessionKeysExpirationHeights : List Nat) :
    RawTx :=
  { toAddr := proxyFactory
    data := createProxySelector ++
      encodeAbiTuple
        [AbiValue.addr u.tokenHolderMasterCopy,
          AbiValue.bytes (setupTokenHolderSelector ++
            encodeAbiTuple
              [AbiValue.addr u.eip20Token, AbiValue.addr u.tokenRules,
                AbiValue.addr owner, AbiValue.addrArray sessionKeys,
                AbiValue.uintArray sessionKeysSpendingLimits,
                AbiValue.uintArray sessionKeysExpirationHeights])] }

/-! ## Length lemmas for the encoder -/

theorem beBytes_length (k : Nat) : ∀ n : Nat, (beBytes k n).length = k := by
  induction k with
  | zero => intro n; rfl
  | succ k ih => intro n; simp [beBytes, ih]

theorem encodeWord_length (n : Nat) : (encodeWord n).length = 32 :=
  beBytes_length 32 (n % 2 ^ 256)

theorem encodeAddressWord_length (a : Nat) : (encodeAddressWord a).length = 32 :=
  encodeWord_length (a % 2 ^ 160)

theorem flatten_map_encodeAddressWord_length (as' : List Nat) :
    ((as'.map encodeAddressWord).flatten).length = 32 * as'.length := by
  induction as' with
  | nil => rfl
  | cons a rest ih =>
    simp [ih, encodeAddressWord_length, Nat.mul_succ, Nat.mul_add]
    omega

theorem flatten_map_encodeWord_length (ns : List Nat) :
    ((ns.map encodeWord).flatten).length = 32 * ns.length := by
  induction ns with
  | nil => rfl
  | cons n rest ih =>
    simp [ih, encodeWord_length, Nat.mul_succ, Nat.mul_add]
    omega

/-! ## Claim theorems -/

/-- C2: encoding is deterministic — two runs of `getGnosisSafeData` on
identical arguments, of `getTokenHolderSetupExecutableData` on identical
arguments over identically configured `User` instances, and of the typed-data
struct encoding over identical Safe Transactions, produce identical byte
strings. -/
theorem encoding_deterministic
    (owners owners₂ : List Nat) (threshold threshold₂ toAddr toAddr₂ : Nat)
    (data data₂ : List Nat) (u u₂ : User) (owner owner₂ : Nat)
    (ks ks₂ ls ls₂ es es₂ : List Nat) (t t₂ : SafeTx)
    (h1 : owners = owners₂) (h2 : threshold = threshold₂)
    (h3 : toAddr = toAddr₂) (h4 : data = data₂) (h5 : u = u₂)
    (h6 : owner = owner₂) (h7 : ks = ks₂) (h8 : ls = ls₂) (h9 : es = es₂)
    (h10 : t = t₂) :
    getGnosisSafeData owners threshold toAddr data =
      getGnosisSafeData owners₂ threshold₂ toAddr₂ data₂ ∧
    getTokenHolderSetupExecutableData u owner ks ls es =
      getTokenHolderSetupExecutableData u₂ owner₂ ks₂ ls₂ es₂ ∧
    safeTxStructEncoding t = safeTxStructEncoding t₂ := by
  subst h1 h2 h3 h4 h5 h6 h7 h8 h9 h10
  exact ⟨rfl, rfl, rfl⟩

theorem encoding_deterministic_witness :
    getGnosisSafeData [3] 1 0 [] = getGnosisSafeData [3] 1 0 [] ∧
    getTokenHolderSetupExecutableData (mkUser 1 2 3 4 5) 7 [8] [9] [10] =
      getTokenHolderSetupExecutableData (mkUser 1 2 3 4 5) 7 [8] [9] [10] ∧
    safeTxStructEncoding ⟨1, 0, [], 0, 0, 0, 0, 0, 0, 0⟩ =
      safeTxStructEncoding ⟨1, 0, [], 0, 0, 0, 0, 0, 0, 0⟩ :=
  encoding_deterministic [3] [3] 1 1 0 0 [] [] (mkUser 1 2 3 4 5)
    (mkUser 1 2 3 4 5) 7 7 [8] [8] [9] [9] [10] [10]
    ⟨1, 0, [], 0, 0, 0, 0, 0, 0, 0⟩ ⟨1, 0, [], 0, 0, 0, 0, 0, 0, 0⟩
    rfl rfl rfl rfl rfl rfl rfl rfl rfl rfl

/-- C6: the sender raises `SubmissionError` exactly when the node rejects the
transaction before mining, raises `RevertError` exactly when the transaction
is mined with a reverting receipt status, and performs exactly one submission
per invocation (no retry). -/
theorem txSender_outcomes (node : Node) (tx : RawTx) :
    ((txSenderExecute node tx).1 = Except.error SdkError.SubmissionError ↔
      node tx = NodeResponse.rejected) ∧
    ((txSenderExecute node tx).1 = Except.error SdkError.RevertError ↔
      ∃ events, node tx = NodeResponse.mined false events) ∧
    (txSenderExecute node tx).2 = [tx] := by
  refine ⟨?_, ?_, ?_⟩ <;> cases h : node tx with
  | rejected => simp [txSenderExecute, h]
  | mined status events => cases status <;> simp [txSenderExecute, h]

/-- C8: the facade resolves the ABI and encodes the arguments before any
dispatch: when raw-transaction construction fails, `createUserWallet` and
`createCompanyWallet` terminate with that error and submit no transaction. -/
theorem facade_no_dispatch_on_encode_error (u : User) (node : Node)
    (owners : List Nat) (threshold toAddr : Nat) (data ks ls es : List Nat)
    (proxyFactory owner : Nat) (e e₂ : SdkError)
    (h1 : createUserWalletRawTx u owners threshold toAddr data ks ls es =
      Except.error e)
    (h2 : createCompanyWalletRawTx u proxyFactory owner ks ls es =
      Except.error e₂) :
    createUserWallet u node owners threshold toAddr data ks ls es =
      (Except.error e, []) ∧
    createCompanyWallet u node proxyFactory owner ks ls es =
      (Except.error e₂, []) := by
  constructor
  · simp [createUserWallet, h1]
  · simp [createCompanyWallet, h2]

theorem facade_no_dispatch_on_encode_error_witness :
    createUserWallet ⟨1, 2, 3, 4, 5, []⟩ (fun _ => NodeResponse.mined true [])
        [6] 1 0 [] [] [] [] = (Except.error SdkError.NotFoundError, []) ∧
    createCompanyWallet ⟨1, 2, 3, 4, 5, []⟩
        (fun _ => NodeResponse.mined true []) 7 8 [] [] [] =
      (Except.error SdkError.NotFoundError, []) :=
  facade_no_dispatch_on_encode_error ⟨1, 2, 3, 4, 5, []⟩
    (fun _ => NodeResponse.mined true []) [6] 1 0 [] [] [] [] 7 8
    SdkError.NotFoundError SdkError.NotFoundError rfl rfl

/-- C9: no facade method mutates the instance configuration set by the
constructor — each state-threaded method returns the `User` instance
unchanged. -/
theorem user_facade_no_mutation (u : User) (node : Node) (owners : List Nat)
    (threshold toAddr : Nat) (data ks ls es : List Nat)
    (proxyFactory owner : Nat) :
    (getGnosisSafeDataM u owners threshold toAddr data).2 = u ∧
    (getTokenHolderSetupExecutableDataM u owner ks ls es).2 = u ∧
    (createUserWalletM u node owners threshold toAddr data ks ls es).2 = u ∧
    (createCompanyWalletM u node proxyFactory owner ks ls es).2 = u :=
  ⟨rfl, rfl, rfl, rfl⟩

theorem sum_length_encodeAddressWord (owners : List Nat) :
    (List.map (List.length ∘ encodeAddressWord) owners).sum = 32 * owners.length := by
  induction owners with
  | nil => rfl
  | cons a rest ih =>
    simp [Function.comp, encodeAddressWord_length, ih, Nat.mul_succ]
    omega

/-- C3: `getGnosisSafeData` returns the standard ABI encoding of a call to
`setup(address[],uint256,address,bytes)`: the 4-byte selector of that
signature followed by the 32-byte-aligned encoding of the arguments in the
exact order owners, threshold, to, data — the static threshold and address in
their head words, the dynamic address array and bytes payload length-prefixed
in the tail with their head words holding the byte offsets (128, and
160 + 32·|owners|) of those tails. -/
theorem getGnosisSafeData_abi_layout (owners : List Nat)
    (threshold toAddr : Nat) (data : List Nat) :
    getGnosisSafeData owners threshold toAddr data =
      setupGnosisSelector ++
        encodeWord 128 ++ encodeWord threshold ++ encodeAddressWord toAddr ++
        encodeWord (160 + 32 * owners.length) ++
        (encodeWord owners.length ++ (owners.map encodeAddressWord).flatten) ++
        (encodeWord data.length ++ padRight32 data) := by
  simp [getGnosisSafeData, encodeAbiTuple, encodeAux, AbiValue.encHead,
    AbiValue.encTail, encodeWord_length, flatten_map_encodeAddressWord_length,
    sum_length_encodeAddressWord, List.append_assoc]
  ring_nf

theorem findPreviousOwnerAux_spec (prev : Nat) (pre post : List Nat)
    (owner : Nat) (h : owner ∉ pre) :
    findPreviousOwnerAux prev (pre ++ owner :: post) owner =
      some (pre.getLast?.getD prev) := by
  induction pre generalizing prev with
  | nil => simp [findPreviousOwnerAux]
  | cons p ps ih =>
    simp only [List.mem_cons, not_or] at h
    have hp : ¬ p = owner := fun e => h.1 e.symm
    simp only [List.cons_append, findPreviousOwnerAux, hp, if_false,
      List.append_eq]
    rw [ih p h.2]
    cases ps with
    | nil => simp
    | cons q qs =>
      have hne : (q :: qs).getLast? ≠ none := by
        simp [List.getLast?_eq_none_iff]
      cases e : (q :: qs).getLast? with
      | none => exact absurd e hne
      | some x => simp [e]

/-- C5: for an owner list stored head first (the on-chain sentinel pointing at
the head), `findPreviousOwner` returns the immediate predecessor of the given
owner in the singly linked list — for a list `pre ++ owner :: post` in which
`owner` does not occur earlier, the last entry of `pre` — and returns the
sentinel value when the owner is the head (`pre = []`). -/
theorem findPreviousOwner_linked_list (pre post : List Nat) (owner : Nat)
    (h : owner ∉ pre) :
    findPreviousOwner (pre ++ owner :: post) owner =
      some (pre.getLast?.getD SENTINEL_OWNERS) := by
  cases pre with
  | nil => simp [findPreviousOwner]
  | cons p ps =>
    simp only [List.mem_cons, not_or] at h
    have hp : ¬ p = owner := fun e => h.1 e.symm
    simp only [List.cons_append, findPreviousOwner, hp, if_false]
    rw [findPreviousOwnerAux_spec p ps post owner h.2]
    cases ps with
    | nil => simp
    | cons q qs =>
      have hne : (q :: qs).getLast? ≠ none := by
        simp [List.getLast?_eq_none_iff]
      cases e : (q :: qs).getLast? with
      | none => exact absurd e hne
      | some x => simp [e]

theorem findPreviousOwner_linked_list_witness :
    findPreviousOwner [10, 20, 30] 20 = some 10 ∧
    findPreviousOwner [10, 20, 30] 10 = some SENTINEL_OWNERS := by
  constructor
  · have h := findPreviousOwner_linked_list [10] [30] 20 (by decide)
    simpa using h
  · have h := findPreviousOwner_linked_list [] [20, 30] 10 (by decide)
    simpa using h

theorem createUserWalletRawTx_ok (u : User) (owners : List Nat)
    (threshold toAddr : Nat) (data ks ls es : List Nat)
    (hreg : "UserWalletFactory" ∈ u.abiBinProvider) :
    createUserWalletRawTx u owners threshold toAddr data ks ls es =
      Except.ok (userWalletFactoryCallTx u owners threshold toAddr data ks ls es) := by
  simp [createUserWalletRawTx, getABI, hreg, bind, Except.bind,
    userWalletFactoryCallTx]

theorem createCompanyWalletRawTx_ok (u : User) (proxyFactory owner : Nat)
    (ks ls es : List Nat)
    (hth : "TokenHolder" ∈ u.abiBinProvider)
    (hpf : "ProxyFactory" ∈ u.abiBinProvider) :
    createCompanyWalletRawTx u proxyFactory owner ks ls es =
      Except.ok (companyProxyCallTx u proxyFactory owner ks ls es) := by
  simp [createCompanyWalletRawTx, getTokenHolderSetupExecutableData, getABI,
    hth, hpf, bind, Except.bind, companyProxyCallTx]

theorem txSenderExecute_submissions (node : Node) (tx : RawTx) :
    (txSenderExecute node tx).2 = [tx] := by
  cases h : node tx with
  | rejected => simp [txSenderExecute, h]
  | mined status events => cases status <;> simp [txSenderExecute, h]

theorem txSenderExecute_no_validation_error (node : Node) (tx : RawTx) :
    (txSenderExecute node tx).1 ≠ Except.error SdkError.ValidationError := by
  cases h : node tx with
  | rejected => simp [txSenderExecute, h]
  | mined status events => cases status <;> simp [txSenderExecute, h]

/-- C1 counterexample: with session-key arrays of mismatched lengths (2 keys,
1 spending limit, 2 expiration heights), `createUserWallet` does not fail with
a `ValidationError` — against an accepting node the call succeeds and one
transaction is submitted. -/
theorem createUserWallet_mismatched_lengths_cex :
    ([21, 22] : List Nat).length ≠ ([31] : List Nat).length ∧
    (createUserWallet (mkUser 11 12 13 14 15)
        (fun _ => NodeResponse.mined true []) [5] 1 0 [] [21, 22] [31]
        [41, 42]).1 = Except.ok { status := true, events := [] } ∧
    (createUserWallet (mkUser 11 12 13 14 15)
        (fun _ => NodeResponse.mined true []) [5] 1 0 [] [21, 22] [31]
        [41, 42]).2.length = 1 :=
  ⟨by decide, rfl, rfl⟩

/-- C1 amended: the facade performs no session-key array-length validation —
with mismatched lengths neither `createUserWallet` nor `createCompanyWallet`
fails with a `ValidationError`; each encodes the arrays as given and submits
exactly one transaction. -/
theorem create_wallet_no_length_validation (u : User) (node : Node)
    (owners : List Nat) (threshold toAddr : Nat) (data ks ls es : List Nat)
    (proxyFactory owner : Nat)
    (hreg1 : "UserWalletFactory" ∈ u.abiBinProvider)
    (hreg2 : "TokenHolder" ∈ u.abiBinProvider)
    (hreg3 : "ProxyFactory" ∈ u.abiBinProvider)
    (hmis : ks.length ≠ ls.length ∨ ls.length ≠ es.length ∨
      ks.length ≠ es.length) :
    (createUserWallet u node owners threshold toAddr data ks ls es).1 ≠
      Except.error SdkError.ValidationError ∧
    (createUserWallet u node owners threshold toAddr data ks ls es).2.length = 1 ∧
    (createCompanyWallet u node proxyFactory owner ks ls es).1 ≠
      Except.error SdkError.ValidationError ∧
    (createCompanyWallet u node proxyFactory owner ks ls es).2.length = 1 := by
  have hu : createUserWallet u node owners threshold toAddr data ks ls es =
      txSenderExecute node (userWalletFactoryCallTx u owners threshold toAddr data ks ls es) := by
    simp [createUserWallet,
      createUserWalletRawTx_ok u owners threshold toAddr data ks ls es hreg1]
  have hc : createCompanyWallet u node proxyFactory owner ks ls es =
      txSenderExecute node (companyProxyCallTx u proxyFactory owner ks ls es) := by
    simp [createCompanyWallet,
      createCompanyWalletRawTx_ok u proxyFactory owner ks ls es hreg2 hreg3]
  rw [hu, hc]
  exact ⟨txSenderExecute_no_validation_error node _,
    by rw [txSenderExecute_submissions]; rfl,
    txSenderExecute_no_validation_error node _,
    by rw [txSenderExecute_submissions]; rfl⟩

theorem create_wallet_no_length_validation_witness :
    (createUserWallet (mkUser 11 12 13 14 15)
        (fun _ => NodeResponse.mined true []) [5] 1 0 [] [21, 22] [31]
        [41, 42]).1 ≠ Except.error SdkError.ValidationError ∧
    (createUserWallet (mkUser 11 12 13 14 15)
        (fun _ => NodeResponse.mined true []) [5] 1 0 [] [21, 22] [31]
        [41, 42]).2.length = 1 ∧
    (createCompanyWallet (mkUser 11 12 13 14 15)
        (fun _ => NodeResponse.mined true []) 16 17 [21, 22] [31]
        [41, 42]).1 ≠ Except.error SdkError.ValidationError ∧
    (createCompanyWallet (mkUser 11 12 13 14 15)
        (fun _ => NodeResponse.mined true []) 16 17 [21, 22] [31]
        [41, 42]).2.length = 1 :=
  create_wallet_no_length_validation (mkUser 11 12 13 14 15)
    (fun _ => NodeResponse.mined true []) [5] 1 0 [] [21, 22] [31] [41, 42]
    16 17 (by decide) (by decide) (by decide) (Or.inl (by decide))

/-- C4: every successful `createUserWallet` call dispatches exactly one
transaction via the sender; it targets the configured
`userWalletFactoryAddress`, its call data invokes the factory function
`createUserWallet` with the arguments in source order, and the method returns
the receipt the sender produced. -/
theorem createUserWallet_dispatch (u : User) (node : Node) (owners : List Nat)
    (threshold toAddr : Nat) (data ks ls es : List Nat) (receipt : Receipt)
    (hok : (createUserWallet u node owners threshold toAddr data ks ls es).1 =
      Except.ok receipt) :
    (createUserWallet u node owners threshold toAddr data ks ls es).2 =
      [userWalletFactoryCallTx u owners threshold toAddr data ks ls es] ∧
    (userWalletFactoryCallTx u owners threshold toAddr data ks ls es).toAddr =
      u.userWalletFactoryAddress ∧
    (userWalletFactoryCallTx u owners threshold toAddr data ks ls es).data =
      createUserWalletSelector ++
        encodeAbiTuple
          [AbiValue.addr u.gnosisSafeMasterCopy,
            AbiValue.bytes (getGnosisSafeData owners threshold toAddr data),
            AbiValue.addr u.tokenHolderMasterCopy, AbiValue.addr u.eip20Token,
            AbiValue.addr u.tokenRules, AbiValue.addrArray ks,
            AbiValue.uintArray ls, AbiValue.uintArray es] ∧
    txSenderExecute node
        (userWalletFactoryCallTx u owners threshold toAddr data ks ls es) =
      (Except.ok receipt,
        [userWalletFactoryCallTx u owners threshold toAddr data ks ls es]) := by
  by_cases hreg : "UserWalletFactory" ∈ u.abiBinProvider
  · have hu : createUserWallet u node owners threshold toAddr data ks ls es =
        txSenderExecute node
          (userWalletFactoryCallTx u owners threshold toAddr data ks ls es) := by
      simp [createUserWallet,
        createUserWalletRawTx_ok u owners threshold toAddr data ks ls es hreg]
    rw [hu] at hok ⊢
    refine ⟨txSenderExecute_submissions node _, rfl, rfl, ?_⟩
    have h2 := txSenderExecute_submissions node
      (userWalletFactoryCallTx u owners threshold toAddr data ks ls es)
    exact Prod.ext hok h2
  · exfalso
    have hfail : createUserWallet u node owners threshold toAddr data ks ls es =
        (Except.error SdkError.NotFoundError, []) := by
      simp [createUserWallet, createUserWalletRawTx, getABI, hreg, bind,
        Except.bind]
    rw [hfail] at hok
    exact Except.noConfusion hok

theorem createUserWallet_dispatch_witness :
    (createUserWallet (mkUser 11 12 13 14 15)
        (fun _ => NodeResponse.mined true []) [5] 1 0 [] [21] [31] [41]).2 =
      [userWalletFactoryCallTx (mkUser 11 12 13 14 15) [5] 1 0 [] [21] [31] [41]] ∧
    (userWalletFactoryCallTx (mkUser 11 12 13 14 15) [5] 1 0 [] [21] [31]
      [41]).toAddr = (mkUser 11 12 13 14 15).userWalletFactoryAddress ∧
    (userWalletFactoryCallTx (mkUser 11 12 13 14 15) [5] 1 0 [] [21] [31]
      [41]).data =
      createUserWalletSelector ++
        encodeAbiTuple
          [AbiValue.addr (mkUser 11 12 13 14 15).gnosisSafeMasterCopy,
            AbiValue.bytes (getGnosisSafeData [5] 1 0 []),
            AbiValue.addr (mkUser 11 12 13 14 15).tokenHolderMasterCopy,
            AbiValue.addr (mkUser 11 12 13 14 15).eip20Token,
            AbiValue.addr (mkUser 11 12 13 14 15).tokenRules,
            AbiValue.addrArray [21], AbiValue.uintArray [31],
            AbiValue.uintArray [41]] ∧
    txSenderExecute (fun _ => NodeResponse.mined true [])
        (userWalletFactoryCallTx (mkUser 11 12 13 14 15) [5] 1 0 [] [21] [31]
          [41]) =
      (Except.ok { status := true, events := [] },
        [userWalletFactoryCallTx (mkUser 11 12 13 14 15) [5] 1 0 [] [21] [31]
          [41]]) :=
  createUserWallet_dispatch (mkUser 11 12 13 14 15)
    (fun _ => NodeResponse.mined true []) [5] 1 0 [] [21] [31] [41]
    { status := true, events := [] } rfl

/-- C7: for valid `(owners, threshold)` with `1 ≤ threshold ≤ |owners|`,
`createUserWallet` against the modelled factory chain succeeds with receipt
status true, the resulting owner registry length equals `|owners|`, and the
receipt carries the `UserWalletCreated` event with the created gnosis safe
proxy and token holder proxy addresses. -/
theorem createUserWallet_valid_inputs_succeed (u : User) (owners : List Nat)
    (threshold toAddr : Nat) (data ks ls es : List Nat)
    (gsProxy thProxy : Nat)
    (hreg : "UserWalletFactory" ∈ u.abiBinProvider)
    (h1 : 1 ≤ threshold) (h2 : threshold ≤ owners.length) :
    (createUserWallet u (factoryNode owners threshold gsProxy thProxy) owners
        threshold toAddr data ks ls es).1 =
      Except.ok ({ status := true,
                   events := [Event.UserWalletCreated gsProxy thProxy] } :
        Receipt) ∧
    ({ status := true,
       events := [Event.UserWalletCreated gsProxy thProxy] } : Receipt).status
      = true ∧
    Event.UserWalletCreated gsProxy thProxy ∈
      ({ status := true,
         events := [Event.UserWalletCreated gsProxy thProxy] } : Receipt).events ∧
    (execUserWalletCreation owners threshold gsProxy thProxy).ownerRegistry.length
      = owners.length := by
  have hexec : execUserWalletCreation owners threshold gsProxy thProxy =
      { receiptStatus := true
        events := [Event.UserWalletCreated gsProxy thProxy]
        ownerRegistry := owners } := by
    simp [execUserWalletCreation, h1, h2]
  have hu : createUserWallet u (factoryNode owners threshold gsProxy thProxy)
      owners threshold toAddr data ks ls es =
      txSenderExecute (factoryNode owners threshold gsProxy thProxy)
        (userWalletFactoryCallTx u owners threshold toAddr data ks ls es) := by
    simp [createUserWallet,
      createUserWalletRawTx_ok u owners threshold toAddr data ks ls es hreg]
  refine ⟨?_, rfl, by simp, by rw [hexec]⟩
  rw [hu]
  simp [txSenderExecute, factoryNode, hexec]

theorem createUserWallet_valid_inputs_succeed_witness :
    (createUserWallet (mkUser 11 12 13 14 15) (factoryNode [3, 9] 1 51 52)
        [3, 9] 1 0 [] [21] [31] [41]).1 =
      Except.ok ({ status := true,
                   events := [Event.UserWalletCreated 51 52] } : Receipt) ∧
    ({ status := true,
       events := [Event.UserWalletCreated 51 52] } : Receipt).status = true ∧
    Event.UserWalletCreated 51 52 ∈
      ({ status := true,
         events := [Event.UserWalletCreated 51 52] } : Receipt).events ∧
    (execUserWalletCreation [3, 9] 1 51 52).ownerRegistry.length =
      ([3, 9] : List Nat).length :=
  createUserWallet_valid_inputs_succeed (mkUser 11 12 13 14 15) [3, 9] 1 0 []
    [21] [31] [41] 51 52 (by decide) (by decide) (by decide)

/-- C10: the transaction built by `createCompanyWallet` is independent of the
configured `gnosisSafeMasterCopy` and `userWalletFactoryAddress`: two `User`
instances agreeing on the remaining configuration build identical raw
transactions, the transaction targets the caller-supplied `proxyFactory`, and
its call data is the `createProxy` call built from `tokenHolderMasterCopy`,
`eip20Token` and `tokenRules` only. -/
theorem createCompanyWallet_independent_of_safe_config (u₁ u₂ : User)
    (node : Node) (proxyFactory owner : Nat) (ks ls es : List Nat)
    (h1 : u₁.tokenHolderMasterCopy = u₂.tokenHolderMasterCopy)
    (h2 : u₁.eip20Token = u₂.eip20Token)
    (h3 : u₁.tokenRules = u₂.tokenRules)
    (h4 : u₁.abiBinProvider = u₂.abiBinProvider)
    (hth : "TokenHolder" ∈ u₁.abiBinProvider)
    (hpf : "ProxyFactory" ∈ u₁.abiBinProvider) :
    createCompanyWalletRawTx u₁ proxyFactory owner ks ls es =
      createCompanyWalletRawTx u₂ proxyFactory owner ks ls es ∧
    createCompanyWallet u₁ node proxyFactory owner ks ls es =
      createCompanyWallet u₂ node proxyFactory owner ks ls es ∧
    createCompanyWalletRawTx u₁ proxyFactory owner ks ls es =
      Except.ok (companyProxyCallTx u₁ proxyFactory owner ks ls es) ∧
    (companyProxyCallTx u₁ proxyFactory owner ks ls es).toAddr = proxyFactory ∧
    (companyProxyCallTx u₁ proxyFactory owner ks ls es).data =
      createProxySelector ++
        encodeAbiTuple
          [AbiValue.addr u₁.tokenHolderMasterCopy,
            AbiValue.bytes (setupTokenHolderSelector ++
              encodeAbiTuple
                [AbiValue.addr u₁.eip20Token, AbiValue.addr u₁.tokenRules,
                  AbiValue.addr owner, AbiValue.addrArray ks,
                  AbiValue.uintArray ls, AbiValue.uintArray es])] := by
  have hraw : createCompanyWalletRawTx u₁ proxyFactory owner ks ls es =
      createCompanyWalletRawTx u₂ proxyFactory owner ks ls es := by
    simp [createCompanyWalletRawTx, getTokenHolderSetupExecutableData, h1, h2,
      h3, h4]
  refine ⟨hraw, ?_, ?_, rfl, rfl⟩
  · simp [createCompanyWallet, hraw]
  · exact createCompanyWalletRawTx_ok u₁ proxyFactory owner ks ls es hth hpf

theorem createCompanyWallet_independent_of_safe_config_witness :
    createCompanyWalletRawTx (mkUser 11 12 13 14 15) 16 17 [21] [31] [41] =
      createCompanyWalletRawTx (mkUser 91 12 13 14 95) 16 17 [21] [31] [41] ∧
    createCompanyWallet (mkUser 11 12 13 14 15)
        (fun _ => NodeResponse.mined true []) 16 17 [21] [31] [41] =
      createCompanyWallet (mkUser 91 12 13 14 95)
        (fun _ => NodeResponse.mined true []) 16 17 [21] [31] [41] ∧
    createCompanyWalletRawTx (mkUser 11 12 13 14 15) 16 17 [21] [31] [41] =
      Except.ok (companyProxyCallTx (mkUser 11 12 13 14 15) 16 17 [21] [31]
        [41]) ∧
    (companyProxyCallTx (mkUser 11 12 13 14 15) 16 17 [21] [31] [41]).toAddr =
      16 ∧
    (companyProxyCallTx (mkUser 11 12 13 14 15) 16 17 [21] [31] [41]).data =
      createProxySelector ++
        encodeAbiTuple
          [AbiValue.addr (mkUser 11 12 13 14 15).tokenHolderMasterCopy,
            AbiValue.bytes (setupTokenHolderSelector ++
              encodeAbiTuple
                [AbiValue.addr (mkUser 11 12 13 14 15).eip20Token,
                  AbiValue.addr (mkUser 11 12 13 14 15).tokenRules,
                  AbiValue.addr 17, AbiValue.addrArray [21],
                  AbiValue.uintArray [31], AbiValue.uintArray [41]])] :=
  createCompanyWallet_independent_of_safe_config (mkUser 11 12 13 14 15)
    (mkUser 91 12 13 14 95) (fun _ => NodeResponse.mined true []) 16 17 [21]
    [31] [41] rfl rfl rfl rfl (by decide) (by decide)
